import Mathlib

/-!
Verification of the llmDirector core: a shallow embedding of
`llm_director/base/blocks.py`, `llm_director/base/director.py` and
`llm_director/utils/director_utils.py`, together with theorems settling the
behavioural claims made by the specification.

Modelling conventions:
* Python values flowing through the engine are modelled by the inductive
  `Val`; Python `None` is `Val.none`, tuples are `Val.pair`, and an
  un-awaited coroutine object `self.__call__(e, p)` is `Val.coro e p`
  (a coroutine object is determined by its function and arguments).
* Raised exceptions are modelled by `Except PyErr`.  The repository raises
  plain `Exception` with distinguishing messages; the constructors of
  `PyErr` keep those cases apart and carry the message.
* Python object identity (the `==` used by `Director.subscribe` on action
  instances, which `Action` does not override) is modelled by an `id`
  field compared with `pyEq`.
* `asyncio` scheduling: all core logic in scope is pure, and each dispatch
  awaits its handler task and then its chain coroutines in subscription
  order, so the sequential interpreter below produces the same values and
  the same first-propagated error as the event loop.  Recursion through the
  event graph is bounded by explicit fuel (`DErr.outOfFuel` is the model
  artifact for exhausted fuel).  The semaphore and the log deque are not
  modelled (no claim settled here depends on them).
-/

/-- Python values passed through the engine. -/
inductive Val where
  | none
  | str (s : String)
  | int (n : Int)
  | list (l : List Val)
  | pair (a b : Val)
  | coro (event : String) (payload : Val)

/-- Exceptions raised by the repository code.  `core` stands for an error
raised by user core logic or a parser; its `Nat` tag plays the role of the
Python exception class, used by the `retry_on` filter. -/
inductive PyErr where
  | assertionError (msg : String)
  | initError (msg : String)
  | alreadySubscribed (msg : String)
  | duplicateName (msg : String)
  | valueError (msg : String)
  | typeError (msg : String)
  | core (tag : Nat) (msg : String)
deriving DecidableEq

/-- Errors of the fuelled dispatch interpreter: a propagated Python
exception, or exhaustion of the recursion fuel (model artifact). -/
inductive DErr where
  | py (e : PyErr)
  | outOfFuel
deriving DecidableEq

/-- The `chain` field of a chain-result record: the key may be missing
(`absent`, as in flattened records), present with value `None` (`null`, as
produced when a recursive dispatch found no subscribers), or present with a
list of records. -/
inductive ChainF (α : Type) where
  | absent
  | null
  | recs (l : List α)

/-- A chain-result record `{event_name, result, chain}`. -/
inductive CRec where
  | mk (event_name : String) (result : Val) (chain : ChainF CRec)

def CRec.event_name : CRec → String
  | .mk n _ _ => n

def CRec.result : CRec → Val
  | .mk _ r _ => r

def CRec.chain : CRec → ChainF CRec
  | .mk _ _ c => c

/-- One action instance, as built by `Action.__init__` and its subclass
constructors (`blocks.py`).  `id` models Python object identity,
`blockType` the class attribute `BLOCK_TYPE`, `initFlag` the attribute
`has_been_initialized_properly`, and `forward` the (overridable) core
logic. -/
structure Listener where
  id : Nat
  name : String
  blockType : String
  forward : Val → Except PyErr Val
  parser : Val → Except PyErr Val
  retry_count : Nat
  retry_delay : Nat
  retry_on : Option Nat
  initFlag : Bool

/-- Python object identity (`==` on instances that do not override it). -/
def pyEq (a b : Listener) : Bool := a.id == b.id

/-- `self.retry_on is None or isinstance(e, self.retry_on)`. -/
def retryMatches (ron : Option Nat) (e : PyErr) : Bool :=
  match ron with
  | Option.none => true
  | Option.some t =>
    match e with
    | .core t2 _ => t == t2
    | _ => false

/-- Outcome of one `Action.__call__`, instrumented with the number of
executions of the core-logic-plus-parse sequence (`attempts`) and the total
time passed to `asyncio.sleep` between protected attempts (`sleepTotal`),
so that the retry-policy claims can be stated. -/
structure CallOut where
  outcome : Except PyErr Val
  attempts : Nat
  sleepTotal : Nat

/-- One execution of the `try` body of `Action.__call__`:
`result = await self.forward(data); parsed_result = self.parser(result)`.
The core logic is an oracle indexed by the attempt number, since nothing
forces it to behave the same on every attempt. -/
def attemptOnce (parser : Val → Except PyErr Val) (fwd : Nat → Except PyErr Val)
    (i : Nat) : Except PyErr Val :=
  match fwd i with
  | .ok r => parser r
  | .error e => .error e

/-- The retry loop of `Action.__call__` (`blocks.py` lines 64-77):
`for _ in range(self.retry_count)` runs up to `retry_count` protected
attempts, each failure either sleeping `retry_delay` and continuing (when
the error matches the filter) or propagating at once; the `for`-`else`
branch then makes one final unprotected attempt.  The first argument is
the number of protected attempts remaining, the second the attempt index
reached so far. -/
def actionLoop (ron : Option Nat) (parser : Val → Except PyErr Val)
    (fwd : Nat → Except PyErr Val) (delay : Nat) : Nat → Nat → CallOut
  | 0, i => ⟨attemptOnce parser fwd i, i + 1, 0⟩
  | k + 1, i =>
    match attemptOnce parser fwd i with
    | .ok v => ⟨.ok v, i + 1, 0⟩
    | .error e =>
      if retryMatches ron e then
        let o := actionLoop ron parser fwd delay k (i + 1)
        ⟨o.outcome, o.attempts, o.sleepTotal + delay⟩
      else ⟨.error e, i + 1, 0⟩

/-- `Action.__call__`: the `hasattr(self, "has_been_initialized_properly")`
guard, then the retry loop. -/
def Action.call (l : Listener) (fwd : Nat → Except PyErr Val) : CallOut :=
  if l.initFlag then actionLoop l.retry_on l.parser fwd l.retry_delay l.retry_count 0
  else ⟨.error (.initError ("Action " ++ l.name ++ " has not been initialized properly, remember to call the base constructor")), 0, 0⟩

/-- `Split.__call__` (`blocks.py` lines 104-117): it overrides
`Action.__call__` wholesale, so it awaits `forward` once and checks
`isinstance(output, list)`; there is no init-flag guard, no retry loop and
no parser application. -/
def Split.call (l : Listener) (d : Val) : Except PyErr Val :=
  match l.forward d with
  | .ok out =>
    match out with
    | Val.list xs => .ok (Val.list xs)
    | _ => .error (.valueError "Split action expects list-type data.")
  | .error e => .error e

/-- Invoking a listener: Python method resolution picks `Split.__call__`
for the Split class and `Action.__call__` for every other variant in the
repository.  Within one dispatch the payload is fixed, so the attempt
oracle is the constant function at that payload. -/
def listenerCall (l : Listener) (d : Val) : Except PyErr Val :=
  if l.blockType == "Split" then Split.call l d
  else (Action.call l (fun _ => l.forward d)).outcome

/-- `Action.__init__` (`blocks.py` lines 6-34): the two reserved-name
assertions, then the attribute assignments; the default parser is the
identity and the default core logic (`Action.forward`) returns its input. -/
def Action.init (name : String) (parser : Option (Val → Except PyErr Val))
    (retry_count retry_delay : Nat) (retry_on : Option Nat) (id : Nat) :
    Except PyErr Listener :=
  if name == "Termination" then
    .error (.assertionError "Action name cannot be Termination (reserved for Termination action block)")
  else if name == "Save" then
    .error (.assertionError "Action name cannot be Save (reserved for Save action block)")
  else
    .ok { id := id, name := name, blockType := "Action",
          forward := fun d => .ok d,
          parser := parser.getD (fun x => .ok x),
          retry_count := retry_count, retry_delay := retry_delay,
          retry_on := retry_on, initFlag := true }

/-- `Split.__init__`: `super().__init__(name)` with defaults, tag `Split`,
and a `forward` that passes the data through. -/
def Split.init (name : String) (id : Nat) : Except PyErr Listener :=
  (Action.init name Option.none 0 0 Option.none id).map
    (fun l => { l with blockType := "Split", forward := fun d => .ok d })

/-- `Condition.__init__`: `super().__init__(name)`, tag `Condition`, and a
`forward` that runs `super().forward` (the identity) when the predicate
holds and otherwise returns the data unchanged. -/
def Condition.init (name : String) (cond : Val → Bool) (id : Nat) :
    Except PyErr Listener :=
  (Action.init name Option.none 0 0 Option.none id).map
    (fun l => { l with blockType := "Condition", forward := fun d => if cond d then .ok d else .ok d })

/-- `Termination.__init__` (`blocks.py` lines 148-169): it calls
`super().__init__("Termination")` — which runs the reserved-name assertion
of `Action.__init__` — and overrides `forward` to return `None`. -/
def Termination.init (id : Nat) : Except PyErr Listener :=
  (Action.init "Termination" Option.none 0 0 Option.none id).map
    (fun l => { l with blockType := "Termination", forward := fun _ => .ok Val.none })

/-- The Director state relevant to the claims: the `listeners` and
`actions` dicts (insertion-ordered association lists, like Python dicts)
and the two execution-mode flags. -/
structure Director where
  listeners : List (String × List Listener)
  actions : List (String × Listener)
  depth_first : Bool
  flatten : Bool

/-- Dict lookup (`k in m` / `m[k]`). -/
def assocFind {α : Type} (m : List (String × α)) (k : String) : Option α :=
  match m with
  | [] => Option.none
  | (k2, v) :: rest => if k2 == k then Option.some v else assocFind rest k

/-- Dict assignment `m[k] = v`: replaces in place when the key exists,
otherwise appends (Python dicts preserve insertion order). -/
def assocSet {α : Type} (m : List (String × α)) (k : String) (v : α) :
    List (String × α) :=
  match m with
  | [] => [(k, v)]
  | (k2, w) :: rest => if k2 == k then (k2, v) :: rest else (k2, w) :: assocSet rest k v

/-- `if e not in self.listeners: self.listeners[e] = []` followed by
`self.listeners[e].append(l)`. -/
def subAppend (m : List (String × List Listener)) (e : String) (l : Listener) :
    List (String × List Listener) :=
  match assocFind m e with
  | Option.none => m ++ [(e, [l])]
  | Option.some ls => assocSet m e (ls ++ [l])

/-- First conjunct pair of the duplication check of `Director.subscribe`:
`action_name in self.actions and listener == self.actions[action_name]`. -/
def registeredSame (D : Director) (l : Listener) : Bool :=
  match assocFind D.actions l.name with
  | Option.some a => pyEq a l
  | Option.none => false

/-- Second conjunct pair of the duplication check:
`event_name in self.listeners and listener in self.listeners[event_name]`. -/
def subscribedAt (D : Director) (e : String) (l : Listener) : Bool :=
  match assocFind D.listeners e with
  | Option.some ls => ls.any (fun x => pyEq x l)
  | Option.none => false

/-- The name-conflict check of `Director.subscribe`:
`action_name in self.actions and listener != self.actions[action_name]`. -/
def nameTaken (D : Director) (l : Listener) : Bool :=
  match assocFind D.actions l.name with
  | Option.some a => !(pyEq a l)
  | Option.none => false

/-- `Director.subscribe` (`director.py` lines 32-57). -/
def subscribe (D : Director) (event_name : String) (listener : Listener) :
    Except PyErr Director :=
  if registeredSame D listener && subscribedAt D event_name listener then
    .error (.alreadySubscribed ("Action " ++ listener.name ++ " already exists and is subscribed to " ++ event_name))
  else if nameTaken D listener then
    .error (.duplicateName ("Action " ++ listener.name ++ " already exists. Consider renaming the action, using add_subscription for existing block, or remove and add the action again."))
  else
    .ok { D with actions := assocSet D.actions listener.name listener,
                 listeners := subAppend D.listeners event_name listener }

/-- `Director.add_subscription` (`director.py` lines 59-74); the failed
`assert` is an `AssertionError`. -/
def add_subscription (D : Director) (event_name action_name : String) :
    Except PyErr Director :=
  match assocFind D.actions action_name with
  | Option.none => .error (.assertionError ("Action " ++ action_name ++ " does not exist, please subscribe it first"))
  | Option.some l => .ok { D with listeners := subAppend D.listeners event_name l }

/-- `list.remove(x)`: drop the first element equal (by Python identity
here) to `x`; the caller raises `ValueError` when there is none. -/
def removeFirst (ls : List Listener) (l : Listener) : List Listener :=
  match ls with
  | [] => []
  | x :: rest => if pyEq x l then rest else x :: removeFirst rest l

/-- `Director.remove_subscription` (`director.py` lines 76-90): assert the
name is registered; when the event has a subscriber list, remove the first
occurrence of the listener from it (`list.remove` raises `ValueError` when
the listener is absent); when the event key is missing, do nothing. -/
def remove_subscription (D : Director) (event_name action_name : String) :
    Except PyErr Director :=
  match assocFind D.actions action_name with
  | Option.none => .error (.assertionError ("Action " ++ action_name ++ " does not exist, please subscribe it first"))
  | Option.some l =>
    match assocFind D.listeners event_name with
    | Option.none => .ok D
    | Option.some ls =>
      if ls.any (fun x => pyEq x l) then
        .ok { D with listeners := assocSet D.listeners event_name (removeFirst ls l) }
      else .error (.valueError "list.remove(x): x not in list")

/-- `Director.get_subscriptions` (`director.py` lines 92-105). -/
def get_subscriptions (D : Director) (event_name : String) : List String :=
  match assocFind D.listeners event_name with
  | Option.some ls => ls.map (fun l => l.name)
  | Option.none => []

/-- An invocation trace entry: a listener (by name) was invoked with a
payload.  Model instrumentation used to state who received which payload. -/
abbrev Trace := List (String × Val)

/-- `Director._handle_listener` (`director.py` lines 156-174): invoke the
listener, then build the list of pending recursive `__call__` coroutines —
one per element of the output when the tag is `Split`, otherwise a single
one carrying the whole output.  Each pending coroutine is represented by
its (event name, payload) pair.  The `typeError` branch is Python
iterating a non-iterable; it is unreachable because `Split.__call__` only
returns lists. -/
def handle_listener (l : Listener) (d : Val) :
    Except PyErr (Val × List (String × Val)) :=
  match listenerCall l d with
  | .error e => .error e
  | .ok result =>
    if l.blockType == "Split" then
      match result with
      | Val.list xs => .ok (result, xs.map (fun x => (l.name, x)))
      | _ => .error (.typeError "object is not iterable")
    else .ok (result, [(l.name, result)])

/-- The flattener `flatten_results` of `director_utils.py`, applied to one
record: emit the `{event_name, result}` pair (the `chain` key absent), then
extend the output with the records of the `chain` field verbatim when that
field is present and not `None`. -/
def flattenOne (r : CRec) : List CRec :=
  match r with
  | CRec.mk n v c =>
    CRec.mk n v ChainF.absent :: (match c with
      | ChainF.recs l => l
      | _ => [])

/-- `flatten_results` (`director_utils.py` lines 3-21): the loop
accumulating `final_results` is the concatenation of the per-record
emissions. -/
def flatten_results (results : List CRec) : List CRec :=
  match results with
  | [] => []
  | r :: rest => flattenOne r ++ flatten_results rest

/-- The chain value a dispatch stores in a record: the recursive call
returned `None` (no subscribers) or a list of records. -/
def chainOfOption (o : Option (List CRec)) : ChainF CRec :=
  match o with
  | Option.none => ChainF.null
  | Option.some l => ChainF.recs l

/-- The inner loop `for process in chain_results` of `Director.__call__`:
await each pending recursive dispatch in order and append one record
`{event_name: action_name, result: action_result, chain: output}` per
pending dispatch.  `dsp` is the recursive dispatch at the remaining
fuel. -/
def runChains (dsp : String → Val → Except DErr (Option (List CRec) × Trace))
    (n : String) (r : Val) : List (String × Val) → Except DErr (List CRec × Trace)
  | [] => .ok ([], [])
  | (ev, p) :: rest =>
    match dsp ev p with
    | .error e => .error e
    | .ok (out, tr) =>
      match runChains dsp n r rest with
      | .error e => .error e
      | .ok (recs, tr2) => .ok (CRec.mk n r (chainOfOption out) :: recs, tr ++ tr2)

/-- The breadth-first path of `Director.__call__` (`depth_first = False`):
tasks for all listeners are created on the original `data`, then each is
awaited in subscription order and its pending recursive dispatches are run.
The first error to surface is the earliest one in that per-listener
order, as in the event loop. -/
def breadthRun (dsp : String → Val → Except DErr (Option (List CRec) × Trace))
    (d : Val) : List Listener → Except DErr (List CRec × Trace)
  | [] => .ok ([], [])
  | l :: ls =>
    match handle_listener l d with
    | .error e => .error (DErr.py e)
    | .ok (r, coros) =>
      match runChains dsp l.name r coros with
      | .error e => .error e
      | .ok (recs, tr) =>
        match breadthRun dsp d ls with
        | .error e => .error e
        | .ok (recs2, tr2) => .ok (recs ++ recs2, (l.name, d) :: (tr ++ tr2))

/-- The depth-first path of `Director.__call__` (`director.py` lines
127-135): each listener is invoked and its chains awaited before the next
listener.  Crucially the code rebinds the loop variable:
`data = await action_completion`, so the next listener is invoked on the
tuple `(result, chain-coroutine-list)` rather than on the dispatched
payload; the model keeps that rebinding. -/
def depthRun (dsp : String → Val → Except DErr (Option (List CRec) × Trace)) :
    List Listener → Val → Except DErr (List CRec × Trace)
  | [], _ => .ok ([], [])
  | l :: ls, dv =>
    match handle_listener l dv with
    | .error e => .error (DErr.py e)
    | .ok (r, coros) =>
      match runChains dsp l.name r coros with
      | .error e => .error e
      | .ok (recs, tr) =>
        match depthRun dsp ls (Val.pair r (Val.list (coros.map (fun c => Val.coro c.1 c.2)))) with
        | .error e => .error e
        | .ok (recs2, tr2) => .ok (recs ++ recs2, (l.name, dv) :: (tr ++ tr2))

/-- `Director.__call__` (`director.py` lines 107-154), with explicit fuel
bounding the recursion through the event graph.  No subscriber entry for
the event yields Python `None`; otherwise the listeners are processed in
the configured mode and the collected records are flattened when the flag
is set. -/
def Director.call (D : Director) : Nat → String → Val →
    Except DErr (Option (List CRec) × Trace)
  | 0, _, _ => .error DErr.outOfFuel
  | Nat.succ fuel, e, d =>
    match assocFind D.listeners e with
    | Option.none => .ok (Option.none, [])
    | Option.some ls =>
      match (if D.depth_first then depthRun (Director.call D fuel) ls d
             else breadthRun (Director.call D fuel) d ls) with
      | .error er => .error er
      | .ok (recs, tr) =>
        .ok (Option.some (if D.flatten then flatten_results recs else recs), tr)

/-- Modelled from the spec wording of the flattener (not from the code):
for each record emit its `{event_name, result}` pair, followed immediately
and recursively, depth-first, by the flattened contents of its `chain`
field when present and non-null.  Used as the comparison point for the
flattener claim. -/
def preorderPairs : List CRec → List CRec
  | [] => []
  | CRec.mk n v c :: rest =>
    CRec.mk n v ChainF.absent ::
      ((match c with
        | ChainF.recs l => preorderPairs l
        | _ => []) ++ preorderPairs rest)

/-- The records held by a `chain` field, empty when the field is missing
or `None`. -/
def chainRecsList : ChainF CRec → List CRec
  | ChainF.recs l => l
  | _ => []

/-- The body of `Split.__call__` after the forward call: the
`isinstance(output, list)` check, as a function of the forward outcome.
Used to relate `Split.call` to the shared contract. -/
def splitCheck (r : Except PyErr Val) : Except PyErr Val :=
  match r with
  | .ok (Val.list xs) => .ok (Val.list xs)
  | .ok _ => .error (.valueError "Split action expects list-type data.")
  | .error e => .error e

/-- Registered names are the keys they are stored under: `subscribe`
stores each action in `self.actions` under `listener.__name__`. -/
def KeysOk (D : Director) : Prop :=
  ∀ n a, assocFind D.actions n = Option.some a → a.name = n

/-- Every listener in any event's subscriber sequence is registered in the
name-to-action mapping under its own name, and the registered entry is the
same instance (Python identity). -/
def SubsRegistered (D : Director) : Prop :=
  ∀ e ls l, assocFind D.listeners e = Option.some ls → l ∈ ls →
    ∃ a, assocFind D.actions l.name = Option.some a ∧ pyEq a l = true

/-- The registration invariant of the Director. -/
def RegInv (D : Director) : Prop := KeysOk D ∧ SubsRegistered D

/-- Concrete action "A": core logic returns the string "x". -/
def LA : Listener :=
  { id := 1, name := "A", blockType := "Action", forward := fun _ => .ok (Val.str "x"),
    parser := fun x => .ok x, retry_count := 0, retry_delay := 0,
    retry_on := Option.none, initFlag := true }

/-- Concrete action "B": core logic returns its input. -/
def LB : Listener :=
  { id := 2, name := "B", blockType := "Action", forward := fun d => .ok d,
    parser := fun x => .ok x, retry_count := 0, retry_delay := 0,
    retry_on := Option.none, initFlag := true }

/-- A depth-first director with "A" and "B" subscribed to event "start". -/
def DirDF : Director :=
  { listeners := [("start", [LA, LB])], actions := [("A", LA), ("B", LB)],
    depth_first := true, flatten := false }

/-- An action with two protected retries whose core logic always raises a
retryable error. -/
def L5 : Listener :=
  { id := 5, name := "R", blockType := "Action", forward := fun _ => .error (.core 0 "boom"),
    parser := fun x => .ok x, retry_count := 2, retry_delay := 5,
    retry_on := Option.none, initFlag := true }

/-- An action with three protected retries and a retry filter on error
class 7, whose core logic raises an error of class 1. -/
def L6 : Listener :=
  { id := 6, name := "Q", blockType := "Action", forward := fun _ => .error (.core 1 "bad"),
    parser := fun x => .ok x, retry_count := 3, retry_delay := 4,
    retry_on := Option.some 7, initFlag := true }

/-- A Split instance whose init flag is not set (as for a subclass whose
constructor does not call the base constructor — the situation the
`hasattr` guard of `Action.__call__` exists to catch). -/
def S0 : Listener :=
  { id := 10, name := "S", blockType := "Split", forward := fun d => .ok d,
    parser := fun x => .ok x, retry_count := 0, retry_delay := 0,
    retry_on := Option.none, initFlag := false }

/-- The same state as `S0` except for the variant tag. -/
def A0 : Listener := { S0 with blockType := "Action" }

/-- A depth-three nested chain-result tree. -/
def cex3 : List CRec :=
  [CRec.mk "A" Val.none (ChainF.recs
    [CRec.mk "B" Val.none (ChainF.recs
      [CRec.mk "C" Val.none ChainF.null])])]

/-- A Split action whose output is always the empty list. -/
def S9 : Listener :=
  { id := 9, name := "S", blockType := "Split", forward := fun _ => .ok (Val.list []),
    parser := fun x => .ok x, retry_count := 0, retry_delay := 0,
    retry_on := Option.none, initFlag := true }

/-- A breadth-first director with "A" and the empty-output Split "S"
subscribed to "start". -/
def D9 : Director :=
  { listeners := [("start", [LA, S9])], actions := [("A", LA), ("S", S9)],
    depth_first := false, flatten := false }

/-- The empty director. -/
def D0 : Director :=
  { listeners := [], actions := [], depth_first := false, flatten := false }

theorem assocFind_assocSet_self {α : Type} (m : List (String × α)) (k : String) (v : α) :
    assocFind (assocSet m k v) k = Option.some v := by
  induction m with
  | nil => simp [assocSet, assocFind]
  | cons hd tl ih =>
    obtain ⟨k2, w⟩ := hd
    by_cases h : k2 = k
    · subst h
      simp [assocSet, assocFind]
    · simp [assocSet, assocFind, h, ih]

theorem assocFind_assocSet_ne {α : Type} (m : List (String × α)) (k k2 : String) (v : α)
    (h : k2 ≠ k) : assocFind (assocSet m k v) k2 = assocFind m k2 := by
  induction m with
  | nil => simp [assocSet, assocFind, Ne.symm h]
  | cons hd tl ih =>
    obtain ⟨k3, w⟩ := hd
    by_cases h3 : k3 = k
    · subst h3
      simp [assocSet, assocFind, Ne.symm h]
    · simp [assocSet, assocFind, h3, ih]

theorem assocFind_append {α : Type} (m m2 : List (String × α)) (k : String) :
    assocFind (m ++ m2) k =
      match assocFind m k with
      | Option.some v => Option.some v
      | Option.none => assocFind m2 k := by
  induction m with
  | nil => simp [assocFind]
  | cons hd tl ih =>
    obtain ⟨k2, w⟩ := hd
    by_cases h : k2 = k
    · subst h
      simp [assocFind]
    · simp [assocFind, h, ih]

theorem assocFind_subAppend_self (m : List (String × List Listener)) (e : String) (l : Listener) :
    assocFind (subAppend m e l) e = Option.some (((assocFind m e).getD []) ++ [l]) := by
  unfold subAppend
  cases h : assocFind m e with
  | none =>
    rw [assocFind_append]
    simp [h, assocFind]
  | some ls => simp [assocFind_assocSet_self]

theorem assocFind_subAppend_ne (m : List (String × List Listener)) (e e2 : String)
    (l : Listener) (h : e2 ≠ e) :
    assocFind (subAppend m e l) e2 = assocFind m e2 := by
  unfold subAppend
  cases hf : assocFind m e with
  | none =>
    rw [assocFind_append]
    cases h2 : assocFind m e2 with
    | none => simp [assocFind, h2, Ne.symm h]
    | some ls => simp [h2]
  | some ls => simp [assocFind_assocSet_ne _ _ _ _ h]

theorem removeFirst_subset (ls : List Listener) (l x : Listener)
    (h : x ∈ removeFirst ls l) : x ∈ ls := by
  induction ls with
  | nil => simp [removeFirst] at h
  | cons hd tl ih =>
    by_cases hp : pyEq hd l = true
    · simp [removeFirst, hp] at h
      exact List.mem_cons_of_mem hd h
    · simp [removeFirst, hp] at h
      rcases h with h | h
      · simp [h]
      · exact List.mem_cons_of_mem hd (ih h)

theorem pyEq_refl (l : Listener) : pyEq l l = true := by simp [pyEq]

theorem pyEq_shift (a x l : Listener) (h1 : pyEq a x = true) (h2 : pyEq a l = true) :
    pyEq l x = true := by
  simp [pyEq] at h1 h2 ⊢
  omega

theorem actionLoop_allFail (ron : Option Nat) (parser : Val → Except PyErr Val)
    (fwd : Nat → Except PyErr Val) (delay : Nat) (errs : Nat → PyErr)
    (hf : ∀ i, fwd i = .error (errs i))
    (hr : ∀ i, retryMatches ron (errs i) = true) :
    ∀ k i, actionLoop ron parser fwd delay k i =
      ⟨.error (errs (i + k)), i + k + 1, k * delay⟩ := by
  intro k
  induction k with
  | zero => intro i; simp [actionLoop, attemptOnce, hf i]
  | succ k ih =>
    intro i
    have ha : attemptOnce parser fwd i = .error (errs i) := by
      simp [attemptOnce, hf i]
    rw [actionLoop, ha]
    simp only [hr i, if_true]
    rw [ih (i + 1)]
    have h1 : i + 1 + k = i + (k + 1) := by omega
    have h2 : i + 1 + k + 1 = i + (k + 1) + 1 := by omega
    simp [h1, h2, Nat.succ_mul, Nat.add_comm]

theorem flatten_results_flat (l : List CRec)
    (h : ∀ r ∈ l, r.chain = ChainF.absent) : flatten_results l = l := by
  induction l with
  | nil => rfl
  | cons r rest ih =>
    obtain ⟨n, v, c⟩ := r
    have hc : c = ChainF.absent := h (CRec.mk n v c) (List.mem_cons_self _ _)
    subst hc
    simp only [flatten_results, flattenOne]
    rw [ih (fun x hx => h x (List.mem_cons_of_mem _ hx))]
    rfl

theorem preorderPairs_flat (l : List CRec)
    (h : ∀ r ∈ l, r.chain = ChainF.absent) : preorderPairs l = l := by
  induction l with
  | nil => simp [preorderPairs]
  | cons r rest ih =>
    obtain ⟨n, v, c⟩ := r
    have hc : c = ChainF.absent := h (CRec.mk n v c) (List.mem_cons_self _ _)
    subst hc
    simp only [preorderPairs]
    rw [ih (fun x hx => h x (List.mem_cons_of_mem _ hx))]
    simp

theorem breadthRun_append (dsp : String → Val → Except DErr (Option (List CRec) × Trace))
    (d : Val) (xs ys : List Listener) :
    breadthRun dsp d (xs ++ ys) =
      match breadthRun dsp d xs with
      | .error er => .error er
      | .ok p1 =>
        match breadthRun dsp d ys with
        | .error er => .error er
        | .ok p2 => .ok (p1.1 ++ p2.1, p1.2 ++ p2.2) := by
  induction xs with
  | nil =>
    cases hy : breadthRun dsp d ys with
    | error er => simp [breadthRun, hy]
    | ok p2 => simp [breadthRun, hy]
  | cons l xs ih =>
    simp only [List.cons_append]
    rw [show breadthRun dsp d (l :: (xs ++ ys)) =
          (match handle_listener l d with
           | .error e => .error (DErr.py e)
           | .ok (r, coros) =>
             match runChains dsp l.name r coros with
             | .error e => .error e
             | .ok (recs, tr) =>
               match breadthRun dsp d (xs ++ ys) with
               | .error e => .error e
               | .ok (recs2, tr2) => .ok (recs ++ recs2, (l.name, d) :: (tr ++ tr2))) from rfl]
    rw [show breadthRun dsp d (l :: xs) =
          (match handle_listener l d with
           | .error e => .error (DErr.py e)
           | .ok (r, coros) =>
             match runChains dsp l.name r coros with
             | .error e => .error e
             | .ok (recs, tr) =>
               match breadthRun dsp d xs with
               | .error e => .error e
               | .ok (recs2, tr2) => .ok (recs ++ recs2, (l.name, d) :: (tr ++ tr2))) from rfl]
    cases hh : handle_listener l d with
    | error e => rfl
    | ok rc =>
      obtain ⟨r, coros⟩ := rc
      dsimp only
      cases hch : runChains dsp l.name r coros with
      | error er => rfl
      | ok p0 =>
        obtain ⟨recs, tr⟩ := p0
        dsimp only
        rw [ih]
        cases hx : breadthRun dsp d xs with
        | error er => rfl
        | ok p1 =>
          cases hy : breadthRun dsp d ys with
          | error er => rfl
          | ok p2 => simp

/-- Claim C1: the claim states that constructing the Termination variant
succeeds with the fixed name "Termination".  In the code,
`Termination.__init__` calls `super().__init__("Termination")`, and
`Action.__init__` asserts `name != "Termination"`, so the constructor
raises an `AssertionError` instead of succeeding: the code contradicts the
intent recorded in its own assertion message ("reserved for Termination
action block"). -/
theorem C1_termination_construction_fails (id : Nat) :
    Termination.init id = .error (.assertionError "Action name cannot be Termination (reserved for Termination action block)") := rfl

/-- Claim C2: the claim states that in both modes every subscriber is
invoked on the dispatched payload.  In depth-first mode the loop of
`Director.__call__` rebinds `data = await action_completion`, so the
second subscriber "B" is invoked on the tuple
`(first result, chain-coroutine list)` rather than on the dispatched
payload: the invocation trace of the concrete depth-first dispatch below
records `B` receiving that tuple, which differs from the payload. -/
theorem C2_depth_first_payload_clobber :
    Director.call DirDF 2 "start" (Val.str "seed") =
      .ok (Option.some
            [CRec.mk "A" (Val.str "x") ChainF.null,
             CRec.mk "B" (Val.pair (Val.str "x") (Val.list [Val.coro "A" (Val.str "x")])) ChainF.null],
           [("A", Val.str "seed"),
            ("B", Val.pair (Val.str "x") (Val.list [Val.coro "A" (Val.str "x")]))]) ∧
    Val.pair (Val.str "x") (Val.list [Val.coro "A" (Val.str "x")]) ≠ Val.str "seed" :=
  ⟨rfl, fun h => Val.noConfusion h⟩

/-- Claim C5: an action with `retry_count = n` whose core logic raises a
retryable error on every attempt makes exactly `n + 1` attempts at the
core-logic-plus-parse sequence, sleeps the retry delay after each of the
`n` protected failures, and propagates the final attempt's error. -/
theorem C5_retry_exhaustion (l : Listener) (fwd : Nat → Except PyErr Val)
    (errs : Nat → PyErr) (hinit : l.initFlag = true)
    (hf : ∀ i, fwd i = .error (errs i))
    (hr : ∀ i, retryMatches l.retry_on (errs i) = true) :
    Action.call l fwd =
      ⟨.error (errs l.retry_count), l.retry_count + 1, l.retry_count * l.retry_delay⟩ := by
  unfold Action.call
  rw [hinit]
  simp only [if_true]
  have h := actionLoop_allFail l.retry_on l.parser fwd l.retry_delay errs hf hr l.retry_count 0
  simpa using h

theorem C5_witness :
    Action.call L5 (fun _ => .error (.core 0 "boom")) = ⟨.error (.core 0 "boom"), 3, 10⟩ :=
  C5_retry_exhaustion L5 (fun _ => .error (.core 0 "boom")) (fun _ => .core 0 "boom")
    rfl (fun _ => rfl) (fun _ => rfl)

/-- Claim C6: an action with a positive retry count and a retry filter
whose core logic raises a non-matching error on the first attempt makes
exactly one attempt, sleeps nothing, and propagates that error at once. -/
theorem C6_nonretryable_immediate (l : Listener) (fwd : Nat → Except PyErr Val)
    (e : PyErr) (hinit : l.initFlag = true) (hn : 0 < l.retry_count)
    (h0 : fwd 0 = .error e) (hnr : retryMatches l.retry_on e = false) :
    Action.call l fwd = ⟨.error e, 1, 0⟩ := by
  unfold Action.call
  rw [hinit]
  simp only [if_true]
  obtain ⟨k, hk⟩ : ∃ k, l.retry_count = k + 1 := by
    cases hc : l.retry_count with
    | zero => omega
    | succ k => exact ⟨k, rfl⟩
  rw [hk]
  have ha : attemptOnce l.parser fwd 0 = .error e := by simp [attemptOnce, h0]
  rw [actionLoop, ha]
  simp [hnr]

theorem C6_witness :
    Action.call L6 (fun _ => .error (.core 1 "bad")) = ⟨.error (.core 1 "bad"), 1, 0⟩ :=
  C6_nonretryable_immediate L6 (fun _ => .error (.core 1 "bad")) (.core 1 "bad")
    rfl (by simp [L6]) rfl rfl

/-- Claim C3, counterexample: the claim states the flattener recursively
flattens the `chain` contents, matching a depth-first pre-order walk at
any depth.  On the depth-three tree `cex3` the code extends the output
with the chain records verbatim (one level only), producing two entries —
the second still carrying a `chain` field — while the pre-order walk
produces three bare pairs. -/
theorem C3_counterexample : flatten_results cex3 ≠ preorderPairs cex3 := by
  intro h
  have h2 := congrArg List.length h
  simp [cex3, flatten_results, flattenOne, preorderPairs] at h2

/-- Claim C3, amended: the flattener emits, for each record, its
`{event_name, result}` pair followed by its `chain` records verbatim — it
does not recurse — so it agrees with the depth-first pre-order walk
exactly when every record carried by a `chain` field is itself a bare pair
(tree depth at most two in that sense); on flat input with no `chain`
fields it is the identity, hence idempotent. -/
theorem C3_flattener_one_level :
    (∀ l : List CRec, (∀ r ∈ l, r.chain = ChainF.absent) → flatten_results l = l) ∧
    (∀ l : List CRec, (∀ r ∈ l, ∀ c ∈ chainRecsList r.chain, c.chain = ChainF.absent) →
      flatten_results l = preorderPairs l) := by
  constructor
  · exact flatten_results_flat
  · intro l hl
    induction l with
    | nil => simp [flatten_results, preorderPairs]
    | cons r rest ih =>
      obtain ⟨n, v, c⟩ := r
      have hc : ∀ x ∈ chainRecsList c, x.chain = ChainF.absent := by
        intro x hx
        exact hl (CRec.mk n v c) (List.mem_cons_self _ _) x hx
      have hrest : ∀ r2 ∈ rest, ∀ c2 ∈ chainRecsList r2.chain, c2.chain = ChainF.absent :=
        fun r2 h2 => hl r2 (List.mem_cons_of_mem _ h2)
      simp only [flatten_results, flattenOne, preorderPairs]
      rw [ih hrest]
      cases c with
      | absent => simp [preorderPairs]
      | null => simp [preorderPairs]
      | recs lc =>
        have : preorderPairs lc = lc := preorderPairs_flat lc (by
          intro x hx
          exact hc x (by simpa [chainRecsList] using hx))
        simp [preorderPairs, chainRecsList, this]

theorem C3_witness :
    flatten_results [CRec.mk "A" Val.none ChainF.absent] = [CRec.mk "A" Val.none ChainF.absent] :=
  C3_flattener_one_level.1 [CRec.mk "A" Val.none ChainF.absent] (by
    intro r hr
    rw [List.mem_singleton] at hr
    subst hr
    rfl)

/-- Claim C4, counterexample: the claim states that the initialization
check, retry policy and result parsing are applied identically on
invocation of every variant.  `S0` and `A0` are identical states — the
init flag unset, as for a subclass instance whose constructor did not run
the base constructor — differing only in the variant tag; invoking the
Split succeeds while invoking the Action variant fails the initialization
check, so the check is not applied identically across variants. -/
theorem C4_counterexample :
    listenerCall S0 (Val.list []) = .ok (Val.list []) ∧
    listenerCall A0 (Val.list []) =
      .error (.initError "Action S has not been initialized properly, remember to call the base constructor") :=
  ⟨rfl, rfl⟩

/-- Claim C4, amended: Action, Condition and Termination share
`Action.__call__` — the initialization check, the retry policy and the
parser — unchanged, while Split overrides `__call__` entirely: its
invocation equals the shared contract specialized to zero retries, the
identity parser and a forced-set init flag, with the
`isinstance(output, list)` check appended to the core logic — i.e. Split
applies neither the initialization check, nor retries, nor the parser. -/
theorem C4_variant_contract (l : Listener) (d : Val) :
    (l.blockType ≠ "Split" →
      listenerCall l d = (Action.call l (fun _ => l.forward d)).outcome) ∧
    (l.blockType = "Split" →
      listenerCall l d =
        (Action.call { l with retry_count := 0, initFlag := true, parser := fun x => .ok x }
          (fun _ => splitCheck (l.forward d))).outcome) := by
  constructor
  · intro h
    simp [listenerCall, h]
  · intro h
    have hs : Split.call l d = splitCheck (l.forward d) := by
      unfold Split.call splitCheck
      cases hf : l.forward d with
      | error e => rfl
      | ok v => cases v <;> rfl
    unfold listenerCall
    rw [h]
    simp only [beq_self_eq_true, if_true]
    rw [hs]
    unfold Action.call
    simp only [if_true]
    unfold actionLoop attemptOnce
    cases hc : splitCheck (l.forward d) with
    | error e => simp
    | ok v => simp

theorem C4_witness :
    listenerCall S0 (Val.list []) =
      (Action.call { S0 with retry_count := 0, initFlag := true, parser := fun x => .ok x }
        (fun _ => splitCheck (S0.forward (Val.list [])))).outcome :=
  (C4_variant_contract S0 (Val.list [])).2 rfl

theorem actions_set_preserves (D : Director) (l x : Listener)
    (hname : ∀ a, assocFind D.actions l.name = Option.some a → pyEq a l = true)
    (hx : ∃ a, assocFind D.actions x.name = Option.some a ∧ pyEq a x = true) :
    ∃ a, assocFind (assocSet D.actions l.name l) x.name = Option.some a ∧ pyEq a x = true := by
  obtain ⟨a, hfa, hpe⟩ := hx
  by_cases hn : x.name = l.name
  · rw [hn] at hfa
    refine ⟨l, ?_, ?_⟩
    · rw [hn]
      exact assocFind_assocSet_self _ _ _
    · exact pyEq_shift a x l hpe (hname a hfa)
  · refine ⟨a, ?_, hpe⟩
    rw [assocFind_assocSet_ne _ _ _ _ hn]
    exact hfa

theorem subAppend_mem (m : List (String × List Listener)) (e : String) (l : Listener)
    (e2 : String) (ls2 : List Listener) (x : Listener)
    (hfind : assocFind (subAppend m e l) e2 = Option.some ls2) (hmem : x ∈ ls2) :
    (∃ ls0, assocFind m e2 = Option.some ls0 ∧ x ∈ ls0) ∨ x = l := by
  by_cases he : e2 = e
  · subst he
    rw [assocFind_subAppend_self] at hfind
    injection hfind with hh
    have hmem2 : x ∈ (assocFind m e2).getD [] ++ [l] := by
      rw [hh]
      exact hmem
    rcases List.mem_append.mp hmem2 with hm | hm
    · left
      cases hf : assocFind m e2 with
      | none =>
        rw [hf] at hm
        simp at hm
      | some ls0 =>
        rw [hf] at hm
        exact ⟨ls0, rfl, hm⟩
    · right
      simpa using hm
  · rw [assocFind_subAppend_ne _ _ _ _ he] at hfind
    exact Or.inl ⟨ls2, hfind, hmem⟩

/-- Claim C7: `subscribe` fails with the already-subscribed error when the
exact instance is already registered and subscribed to the exact event,
fails with the duplicate-name error when a different instance owns the
name, and otherwise registers the action under its own name and appends
it to the event's subscriber sequence (so the subscription list of the
event becomes the old list followed by the new name, preserving insertion
order). -/
theorem C7_subscribe_contract (D : Director) (e : String) (l : Listener) :
    (registeredSame D l = true → subscribedAt D e l = true →
      subscribe D e l = .error (.alreadySubscribed
        ("Action " ++ l.name ++ " already exists and is subscribed to " ++ e))) ∧
    (nameTaken D l = true →
      subscribe D e l = .error (.duplicateName
        ("Action " ++ l.name ++ " already exists. Consider renaming the action, using add_subscription for existing block, or remove and add the action again."))) ∧
    ((registeredSame D l && subscribedAt D e l) = false → nameTaken D l = false →
      ∃ D2, subscribe D e l = .ok D2 ∧
        assocFind D2.actions l.name = Option.some l ∧
        get_subscriptions D2 e = get_subscriptions D e ++ [l.name]) := by
  refine ⟨?_, ?_, ?_⟩
  · intro h1 h2
    simp [subscribe, h1, h2]
  · intro h
    have h1 : registeredSame D l = false := by
      unfold registeredSame
      unfold nameTaken at h
      cases hf : assocFind D.actions l.name with
      | none => rfl
      | some a =>
        rw [hf] at h
        simp only [Bool.not_eq_true'] at h
        simp [h]
    simp [subscribe, h1, h]
  · intro h1 h2
    refine ⟨{ D with actions := assocSet D.actions l.name l, listeners := subAppend D.listeners e l }, ?_, ?_, ?_⟩
    · simp [subscribe, h1, h2]
    · exact assocFind_assocSet_self _ _ _
    · unfold get_subscriptions
      dsimp only
      rw [assocFind_subAppend_self]
      cases hf : assocFind D.listeners e with
      | none => simp [hf]
      | some ls => simp [hf]

theorem C7_witness :
    ∃ D2, subscribe D0 "start" LA = .ok D2 ∧
      assocFind D2.actions LA.name = Option.some LA ∧
      get_subscriptions D2 "start" = get_subscriptions D0 "start" ++ [LA.name] :=
  (C7_subscribe_contract D0 "start" LA).2.2 rfl rfl

/-- Claim C9: a Split subscriber whose invocation output is the empty
sequence spawns zero recursive dispatches and therefore contributes no
chain-result record: a breadth-first unflattened dispatch on an event
whose subscriber sequence is `ls1 ++ l :: ls2`, with `l` such a Split,
returns exactly the records contributed by `ls1` and `ls2` (the trace
still shows `l` being invoked, but no record carries its name or
result). -/
theorem C9_split_empty_fanout (D : Director) (fuel : Nat) (e : String) (d : Val)
    (ls1 ls2 : List Listener) (l : Listener)
    (hlook : assocFind D.listeners e = Option.some (ls1 ++ l :: ls2))
    (hbf : D.depth_first = false) (hfl : D.flatten = false)
    (hsplit : l.blockType = "Split")
    (hempty : listenerCall l d = .ok (Val.list [])) :
    Director.call D (fuel + 1) e d =
      match breadthRun (Director.call D fuel) d ls1 with
      | .error er => .error er
      | .ok p1 =>
        match breadthRun (Director.call D fuel) d ls2 with
        | .error er => .error er
        | .ok p2 => .ok (Option.some (p1.1 ++ p2.1), p1.2 ++ ((l.name, d) :: p2.2)) := by
  have hhl : handle_listener l d = .ok (Val.list [], []) := by
    unfold handle_listener
    rw [hempty, hsplit]
    simp
  have hmid : breadthRun (Director.call D fuel) d (l :: ls2) =
      match breadthRun (Director.call D fuel) d ls2 with
      | .error er => .error er
      | .ok p2 => .ok (p2.1, (l.name, d) :: p2.2) := by
    simp only [breadthRun, hhl, runChains]
    cases hy : breadthRun (Director.call D fuel) d ls2 with
    | error er => rfl
    | ok p2 =>
      obtain ⟨r2, t2⟩ := p2
      simp
  simp only [Director.call, hlook, hbf, if_false]
  rw [breadthRun_append, hmid]
  cases h1 : breadthRun (Director.call D fuel) d ls1 with
  | error er => rfl
  | ok p1 =>
    cases h2 : breadthRun (Director.call D fuel) d ls2 with
    | error er => rfl
    | ok p2 => simp [hfl]

theorem C9_witness :
    Director.call D9 2 "start" (Val.str "go") =
      match breadthRun (Director.call D9 1) (Val.str "go") [LA] with
      | .error er => .error er
      | .ok p1 =>
        match breadthRun (Director.call D9 1) (Val.str "go") [] with
        | .error er => .error er
        | .ok p2 => .ok (Option.some (p1.1 ++ p2.1), p1.2 ++ ((S9.name, Val.str "go") :: p2.2)) :=
  C9_split_empty_fanout D9 1 "start" (Val.str "go") [LA] [] S9 rfl rfl rfl rfl rfl

/-- Claim C10: the registration invariant — every listener in any event's
subscriber sequence is registered in the name-to-action mapping under its
own name, with the registered entry being that same instance — is
preserved by every successful `subscribe`, `add_subscription` and
`remove_subscription`.  (`RegInv` also carries the coherence fact that
registered entries sit under their own name, which `subscribe`
establishes and the other two operations rely on.) -/
theorem C10_registration_invariant (D : Director) (hD : RegInv D) :
    (∀ e l D2, subscribe D e l = .ok D2 → RegInv D2) ∧
    (∀ e an D2, add_subscription D e an = .ok D2 → RegInv D2) ∧
    (∀ e an D2, remove_subscription D e an = .ok D2 → RegInv D2) := by
  obtain ⟨hK, hS⟩ := hD
  refine ⟨?_, ?_, ?_⟩
  · intro e l D2 h
    unfold subscribe at h
    split at h
    · exact absurd h (by simp)
    · split at h
      · exact absurd h (by simp)
      next hc2 =>
        rw [Except.ok.injEq] at h
        subst h
        have hname : ∀ a, assocFind D.actions l.name = Option.some a → pyEq a l = true := by
          intro a ha
          unfold nameTaken at hc2
          rw [ha] at hc2
          simpa using hc2
        constructor
        · intro n a hfind
          dsimp only at hfind
          by_cases hn : n = l.name
          · subst hn
            rw [assocFind_assocSet_self] at hfind
            injection hfind with hh
            rw [hh.symm]
          · rw [assocFind_assocSet_ne _ _ _ _ hn] at hfind
            exact hK n a hfind
        · intro e2 ls2 x hfind hmem
          dsimp only at hfind ⊢
          rcases subAppend_mem D.listeners e l e2 ls2 x hfind hmem with ⟨ls0, hf0, hm0⟩ | hx
          · exact actions_set_preserves D l x hname (hS e2 ls0 x hf0 hm0)
          · subst hx
            exact ⟨x, assocFind_assocSet_self _ _ _, pyEq_refl x⟩
  · intro e an D2 h
    unfold add_subscription at h
    cases hf : assocFind D.actions an with
    | none =>
      rw [hf] at h
      exact absurd h (by simp)
    | some l =>
      rw [hf] at h
      rw [Except.ok.injEq] at h
      subst h
      refine ⟨hK, ?_⟩
      intro e2 ls2 x hfind hmem
      dsimp only at hfind ⊢
      rcases subAppend_mem D.listeners e l e2 ls2 x hfind hmem with ⟨ls0, hf0, hm0⟩ | hx
      · exact hS e2 ls0 x hf0 hm0
      · subst hx
        have hxn : x.name = an := hK an x hf
        refine ⟨x, ?_, pyEq_refl x⟩
        rw [hxn]
        exact hf
  · intro e an D2 h
    unfold remove_subscription at h
    cases hf : assocFind D.actions an with
    | none =>
      rw [hf] at h
      exact absurd h (by simp)
    | some l =>
      rw [hf] at h
      dsimp only at h
      cases hf2 : assocFind D.listeners e with
      | none =>
        rw [hf2] at h
        dsimp only at h
        rw [Except.ok.injEq] at h
        subst h
        exact ⟨hK, hS⟩
      | some ls =>
        rw [hf2] at h
        dsimp only at h
        split at h
        next hany =>
          rw [Except.ok.injEq] at h
          subst h
          refine ⟨hK, ?_⟩
          intro e2 ls2 x hfind hmem
          dsimp only at hfind ⊢
          by_cases he : e2 = e
          · subst he
            rw [assocFind_assocSet_self] at hfind
            injection hfind with hh
            have hmem2 : x ∈ removeFirst ls l := by
              rw [hh]
              exact hmem
            exact hS e2 ls x hf2 (removeFirst_subset ls l x hmem2)
          · rw [assocFind_assocSet_ne _ _ _ _ he] at hfind
            exact hS e2 ls2 x hfind hmem
        next hany => exact absurd h (by simp)

theorem C10_witness :
    RegInv { D0 with actions := assocSet D0.actions LA.name LA, listeners := subAppend D0.listeners "start" LA } :=
  (C10_registration_invariant D0
      ⟨fun n a hfind => by simp [D0, assocFind] at hfind,
       fun e ls l hfind hmem => by simp [D0, assocFind] at hfind⟩).1
    "start" LA _ rfl
